import Mathlib

/-!
Verification development for the wing resource-synthesis layer.

Shallow embedding of the excerpted sources:
* `src/libs/wingsdk/src/std/node.ts` (Node, symbol-keyed attachment, addr,
  validate, lock — the latter three delegate to the constructs library,
  which is not among the excerpted sources and is therefore modelled from
  the spec where noted),
* `src/libs/wingsdk/src/target-tf-gcp/function.ts` (construction-time
  validation of memory/timeout and the synthesized availableMemoryMb),
* `src/libs/wingsdk/src/target-tf-gcp/schedule.ts` (onTick memoization and
  the environment-variable name derived from the node address),
* `src/libs/wingsdk/src/shared-aws/api.ts` (Api.from / isAwsApi),
* the unnamed Display source (Display.of symbol-keyed attachment).

Machine integers are modelled as `Nat` with explicit `% 2 ^ 32` where the
SHA-1 word arithmetic overflows; JS `undefined` is `Option.none`; fallible
construction returns `Except String`.
-/

/-! ## UTF-8 and SHA-1

The address of a construct is computed by the constructs library as a SHA-1
digest over the path components.  The digest itself is a fixed, well-known
algorithm (spec section 4.2); it is implemented here in full over `Nat`
bytes and 32-bit words (`% 2 ^ 32`).
-/

/-- UTF-8 encoding of a single character, as a list of byte values. -/
def utf8EncodeChar (c : Char) : List Nat :=
  let n := c.toNat
  if n < 0x80 then [n]
  else if n < 0x800 then [0xC0 + n / 64, 0x80 + n % 64]
  else if n < 0x10000 then [0xE0 + n / 4096, 0x80 + n / 64 % 64, 0x80 + n % 64]
  else [0xF0 + n / 262144, 0x80 + n / 4096 % 64, 0x80 + n / 64 % 64, 0x80 + n % 64]

/-- UTF-8 bytes of a string. -/
def strBytes (s : String) : List Nat :=
  s.data.flatMap utf8EncodeChar

/-- SHA-1 padding: append 0x80, zero bytes, and the 64-bit big-endian bit
length, reaching a multiple of 64 bytes. -/
def sha1Pad (msg : List Nat) : List Nat :=
  let L := msg.length
  let k := (64 - (L + 9) % 64) % 64
  msg ++ [0x80] ++ List.replicate k 0 ++
    (List.range 8).map (fun i => (8 * L) / 2 ^ (8 * (7 - i)) % 256)

/-- Split a byte list into 64-byte chunks. -/
def chunks64 : List Nat → List (List Nat)
  | [] => []
  | b :: rest => ((b :: rest).take 64) :: chunks64 ((b :: rest).drop 64)
termination_by l => l.length
decreasing_by simp [List.length_drop]; omega

/-- Left rotation of a 32-bit word. -/
def rotl (n w : Nat) : Nat := (w * 2 ^ n + w / 2 ^ (32 - n)) % 2 ^ 32

/-- The 16 big-endian 32-bit words of one 64-byte chunk. -/
def chunkWords (chunk : List Nat) : List Nat :=
  (List.range 16).map (fun i =>
    chunk.getD (4 * i) 0 * 2 ^ 24 + chunk.getD (4 * i + 1) 0 * 2 ^ 16 +
    chunk.getD (4 * i + 2) 0 * 2 ^ 8 + chunk.getD (4 * i + 3) 0)

/-- Extend 16 chunk words to the 80 words of the SHA-1 message schedule. -/
def extendWords (ws : List Nat) : List Nat :=
  (List.range 64).foldl
    (fun acc _ =>
      acc ++ [rotl 1 ((acc.getD (acc.length - 3) 0 ^^^ acc.getD (acc.length - 8) 0) ^^^
        (acc.getD (acc.length - 14) 0 ^^^ acc.getD (acc.length - 16) 0))])
    ws

/-- One SHA-1 round on the state `(a, b, c, d, e)`. -/
def sha1Round (ws : List Nat) (st : Nat × Nat × Nat × Nat × Nat) (i : Nat) :
    Nat × Nat × Nat × Nat × Nat :=
  let (a, b, c, d, e) := st
  let f :=
    if i < 20 then (b &&& c) ||| ((b ^^^ 0xFFFFFFFF) &&& d)
    else if i < 40 then b ^^^ c ^^^ d
    else if i < 60 then (b &&& c) ||| (b &&& d) ||| (c &&& d)
    else b ^^^ c ^^^ d
  let k :=
    if i < 20 then 0x5A827999
    else if i < 40 then 0x6ED9EBA1
    else if i < 60 then 0x8F1BBCDC
    else 0xCA62C1D6
  let temp := (rotl 5 a + f + e + k + ws.getD i 0) % 2 ^ 32
  (temp, a, rotl 30 b, c, d)

/-- Process one 64-byte chunk, updating the five hash words. -/
def processChunk (h : Nat × Nat × Nat × Nat × Nat) (chunk : List Nat) :
    Nat × Nat × Nat × Nat × Nat :=
  let ws := extendWords (chunkWords chunk)
  let r := (List.range 80).foldl (sha1Round ws) h
  ((h.1 + r.1) % 2 ^ 32, (h.2.1 + r.2.1) % 2 ^ 32, (h.2.2.1 + r.2.2.1) % 2 ^ 32,
   (h.2.2.2.1 + r.2.2.2.1) % 2 ^ 32, (h.2.2.2.2 + r.2.2.2.2) % 2 ^ 32)

/-- The five 32-bit words of the SHA-1 digest of a byte list. -/
def sha1Words (msg : List Nat) : List Nat :=
  let h := (chunks64 (sha1Pad msg)).foldl processChunk
    (0x67452301, 0xEFCDAB89, 0x98BADCFE, 0x10325476, 0xC3D2E1F0)
  [h.1, h.2.1, h.2.2.1, h.2.2.2.1, h.2.2.2.2]

/-- The sixteen lowercase hexadecimal digits. -/
def hexChars : List Char :=
  "0123456789abcdef".data

/-- Big-endian lowercase hex rendering of one 32-bit word (8 characters). -/
def wordHexChars (w : Nat) : List Char :=
  (List.range 8).map (fun i => hexChars.getD (w / 2 ^ (4 * (7 - i)) % 16) '0')

/-- Lowercase hex rendering of the SHA-1 digest (40 characters). -/
def sha1HexChars (msg : List Nat) : List Char :=
  (sha1Words msg).flatMap wordHexChars

/-! ## Addresses (`Node.addr`, node.ts lines 107-124)

`Node.addr` in node.ts delegates to the constructs library's `Node.addr`.
-/

/-- Byte stream hashed for an address: each path component's UTF-8 bytes
followed by a newline byte. -/
def componentsBytes (l : List String) : List Nat :=
  l.flatMap (fun s => strBytes s ++ [10])

/-- Modelled from the spec: the constructs library's address computation is
not among the excerpted sources.  Per spec section 4.2 and the doc comment
of `Node.addr` (node.ts lines 107-121): the address is the constant tag
"c8" followed by the 40 lowercase hex characters of a SHA-1 digest of the
path components from root to node, with any component equal to the reserved
transparent-wrapper id "Default" removed before hashing. -/
def addrChars (components : List String) : List Char :=
  'c' :: '8' ::
    sha1HexChars (componentsBytes (components.filter (fun c => c != "Default")))

/-- The address string of a node with the given root-to-node id components
(`Node.addr`, node.ts line 122). -/
def addrOfComponents (components : List String) : String :=
  String.mk (addrChars components)

/-! ## Environment-variable name (`Schedule.envName`, schedule.ts lines 118-120) -/

/-- JS `String.prototype.slice(-n)` for `n` at most the length: the last `n`
characters. -/
def jsSliceLast (n : Nat) (s : String) : String :=
  String.mk (s.data.drop (s.data.length - n))

/-- `Schedule.envName` (schedule.ts line 119): the literal
`SCHEDULER_JOB_` followed by `this.node.addr.slice(-8)`, as a function of
the node's path components. -/
def envName (components : List String) : String :=
  "SCHEDULER_JOB_" ++ jsSliceLast 8 (addrOfComponents components)

/-! ## target-tf-gcp Function construction-time validation
(function.ts lines 91-122)

`props.memory` and `props.timeout` are optional; `props.memory &&` is JS
truthiness, so a present memory of `0` is falsy and skips the range check,
while `props.timeout` is a Duration object and is truthy whenever present,
so only its `seconds` value decides the timeout check.
-/

/-- The guard of function.ts line 92: `props?.memory && (props.memory < 128
|| props.memory > 8192)`. -/
def memoryGuard : Option Nat → Bool
  | none => false
  | some m => m != 0 && (decide (m < 128) || decide (m > 8192))

/-- The guard of function.ts lines 100-102: `props?.timeout &&
(props.timeout.seconds < 1 || props.timeout.seconds > 540)`. -/
def timeoutGuard : Option Nat → Bool
  | none => false
  | some t => decide (t < 1) || decide (t > 540)

/-- The memory error message thrown at function.ts lines 93-95. -/
def memoryErrorMsg : String :=
  "Memory must be between 128 and 8192 MB for GCP Cloud Functions"

/-- The timeout error message thrown at function.ts lines 103-105. -/
def timeoutErrorMsg : String :=
  "Timeout must be between 1 and 540 seconds for GCP Cloud Functions"

/-- The construction-time validation sequence of the target-tf-gcp
`Function` constructor (function.ts lines 91-106): the memory check runs
first, then the timeout check; passing both reaches the
`CloudfunctionsFunction` creation. -/
def validateFunctionProps (memory : Option Nat) (timeoutSeconds : Option Nat) :
    Except String Unit :=
  if memoryGuard memory then Except.error memoryErrorMsg
  else if timeoutGuard timeoutSeconds then Except.error timeoutErrorMsg
  else Except.ok ()

/-- The `availableMemoryMb` field of the synthesized function
(function.ts line 115): `props.memory ?? 128` — the nullish-coalescing
default applies only when `props.memory` is absent, not when it is `0`. -/
def availableMemoryMb (memory : Option Nat) : Nat :=
  memory.getD 128

/-- The `timeout` field of the synthesized function (function.ts line 120):
`props.timeout?.seconds ?? 60`. -/
def timeoutField (timeoutSeconds : Option Nat) : Nat :=
  timeoutSeconds.getD 60

/-! ## shared-aws Api downcast (api.ts lines 49-72) -/

/-- A runtime JS value as far as the duck-typed `isAwsApi` check can tell:
the check only asks `typeof field === "string"` for each field. -/
inductive JsValue : Type where
  | str : String → JsValue
  | num : Int → JsValue
  | boolean : Bool → JsValue
  | undef : JsValue
  | objectVal : JsValue
deriving DecidableEq

/-- `typeof v === "string"`. -/
def JsValue.isStringTy : JsValue → Bool
  | .str _ => true
  | _ => false

/-- The six fields probed by `Api.isAwsApi` on the argument object; any
other structure of the argument is irrelevant to the check. -/
structure ApiObj where
  restApiArn : JsValue
  restApiId : JsValue
  restApiName : JsValue
  stageName : JsValue
  invokeUrl : JsValue
  deploymentId : JsValue
deriving DecidableEq

/-- `Api.isAwsApi` (api.ts lines 62-71): all six fields are strings. -/
def isAwsApi (o : ApiObj) : Bool :=
  o.restApiArn.isStringTy && o.restApiId.isStringTy && o.restApiName.isStringTy &&
  o.stageName.isStringTy && o.invokeUrl.isStringTy && o.deploymentId.isStringTy

/-- `Api.from` (api.ts lines 55-60): the argument itself when `isAwsApi`
holds, `undefined` otherwise.  Total — it never throws. -/
def apiFrom (o : ApiObj) : Option ApiObj :=
  if isAwsApi o then some o else none

/-! ## target-tf-gcp Schedule.onTick (schedule.ts lines 38-106)

The per-instance state of one `Schedule`: the ids of children already
created beneath it, the `handlers` memo table (handler `_id` to the created
Function, represented by a token), and a counter supplying fresh ids and
tokens.
-/

/-- State of one `Schedule` construct instance. -/
structure ScheduleState where
  childIds : List String
  handlers : List (String × Nat)
  nextTick : Nat
deriving DecidableEq

/-- Modelled from the spec: the constructs library's `addChild` is not among
the excerpted sources; per spec section 4.1, tree-building operations fail
with `DuplicateChildId` when the id collides with an existing sibling. -/
def addScheduleChild (s : ScheduleState) (cid : String) : Except String ScheduleState :=
  if s.childIds.contains cid then
    Except.error ("There is already a Construct with name " ++ cid)
  else Except.ok { s with childIds := s.childIds ++ [cid] }

/-- `Schedule.onTick` (schedule.ts lines 38-106), as a state transition
returning the token of the `cloud.Function` it returns.  In source order:
`new ProjectService(this, "CloudSchedulerAPI", ...)` (line 44) runs before
the `this.handlers[inflight._id]` memo lookup (line 58); on a miss, a new
`Function` is created under a fresh id (`App.of(this).makeId(this,
"OnTick")`, modelled from the spec as "OnTick" plus a counter), recorded in
`handlers`, then `new ServiceAccount(this, "SchedulerServiceAccount", ...)`
(line 71) and — since `Function.from` succeeds on the GCP Function — `new
CloudSchedulerJob(this, "Scheduler", ...)` (line 84) are created.
`convertBetweenHandlers` adds no child with a fixed id to the schedule. -/
def onTick (s0 : ScheduleState) (handlerId : String) : Except String (Nat × ScheduleState) := do
  let s1 ← addScheduleChild s0 "CloudSchedulerAPI"
  match s1.handlers.find? (fun e => e.1 == handlerId) with
  | some e => Except.ok (e.2, s1)
  | none =>
    let fnToken := s1.nextTick
    let s2 ← addScheduleChild { s1 with nextTick := s1.nextTick + 1 }
      ("OnTick" ++ toString fnToken)
    let s3 := { s2 with handlers := s2.handlers ++ [(handlerId, fnToken)] }
    let s4 ← addScheduleChild s3 "SchedulerServiceAccount"
    let s5 ← addScheduleChild s4 "Scheduler"
    Except.ok (fnToken, s5)

/-- The schedule state after a first `onTick` with handler id "h1" on a
fresh instance. -/
def scheduleAfterFirstTick : ScheduleState :=
  { childIds := ["CloudSchedulerAPI", "OnTick0", "SchedulerServiceAccount", "Scheduler"],
    handlers := [("h1", 0)],
    nextTick := 1 }

/-! ## Symbol-keyed attachment (`Node.of`, node.ts lines 24-33, and
`Display.of`, unnamed Display source lines 18-27)

The symbol-keyed property `construct[NODE_SYMBOL]` (respectively
`construct[DISPLAY_SYMBOL]`) is modelled as a side table from construct
identity (a token) to the attached companion instance (a token), exactly
the side-table reading spec section 9 gives for this mechanism.  Companion
instances are allocated from a counter, so token equality is
reference-equality of instances.
-/

/-- A side table of attachments plus the allocator for instance tokens. -/
structure AttachTable where
  entries : List (Nat × Nat)
  nextInstance : Nat
deriving DecidableEq

/-- Reading the symbol-keyed property of a construct. -/
def lookupAttached (t : AttachTable) (construct : Nat) : Option Nat :=
  (t.entries.find? (fun e => e.1 == construct)).map (fun e => e.2)

/-- `Node.of` (node.ts lines 24-33): return the attached Node, creating and
caching one when absent. -/
def nodeOf (t : AttachTable) (construct : Nat) : Nat × AttachTable :=
  match lookupAttached t construct with
  | some inst => (inst, t)
  | none =>
    (t.nextInstance,
     { entries := (construct, t.nextInstance) :: t.entries,
       nextInstance := t.nextInstance + 1 })

/-- `Display.of` (unnamed Display source lines 18-27): same shape as
`Node.of`, against the `DISPLAY_SYMBOL` table. -/
def displayOf (t : AttachTable) (construct : Nat) : Nat × AttachTable :=
  match lookupAttached t construct with
  | some inst => (inst, t)
  | none =>
    (t.nextInstance,
     { entries := (construct, t.nextInstance) :: t.entries,
       nextInstance := t.nextInstance + 1 })

/-! ## Construct tree: validation and locking

`Node.validate`, `Node.lock`, `Node.locked` and child creation (node.ts
lines 270-276, 304-335) delegate to the constructs library, which is not
among the excerpted sources; the tree and these operations are modelled
from the spec (sections 3, 4.1, 7).  A tree node carries its id, its lock
flag, its registered validators (each a zero-argument validator, modelled
by the list of error strings it returns; a passing validator returns `[]`),
and its ordered children.
-/

/-- A construct tree node: id, lock flag, validators, children. -/
inductive CTree : Type where
  | node : String → Bool → List (List String) → List CTree → CTree

/-- The id of a tree node. -/
def CTree.ident : CTree → String
  | .node i _ _ _ => i

/-- The lock flag set directly on a tree node by `lock()`. -/
def CTree.flagged : CTree → Bool
  | .node _ f _ _ => f

/-- The validators registered on a tree node via `addValidation`. -/
def CTree.vals : CTree → List (List String)
  | .node _ _ v _ => v

/-- The ordered children of a tree node. -/
def CTree.kids : CTree → List CTree
  | .node _ _ _ k => k

/-- The direct child with the given id, if any. -/
def childWithId (cs : List CTree) (i : String) : Option CTree :=
  cs.find? (fun c => c.ident == i)

/-- The node reached from `t` by following the given child-id path. -/
def nodeAt : List String → CTree → Option CTree
  | [], t => some t
  | i :: rest, t =>
    match childWithId t.kids i with
    | some c => nodeAt rest c
    | none => none

/-- Modelled from the spec: `locked` (node.ts lines 270-276 delegates to the
constructs library) reports true if this node or any of the scopes it is
defined in is locked — any lock flag along the root-to-node path. -/
def lockedAt : List String → CTree → Bool
  | [], t => t.flagged
  | i :: rest, t =>
    t.flagged ||
      match childWithId t.kids i with
      | some c => lockedAt rest c
      | none => false

/-- Modelled from the spec: `lock()` (node.ts lines 330-335 delegates to the
constructs library) marks the node at the given path; the restriction
reaches the whole subtree through the ancestor walk of `lockedAt`. -/
def lockAt : List String → CTree → CTree
  | [], .node i _ v k => .node i true v k
  | j :: rest, .node i f v k =>
    .node i f v (k.map (fun c => if c.ident == j then lockAt rest c else c))

/-- Modelled from the spec: creating a child construct under the node at the
given path (spec section 4.1) fails with `LockedTreeMutation` when the
parent or any ancestor is locked, and with `DuplicateChildId` when the id
collides with an existing sibling; otherwise the child is appended. -/
def addChildAt : List String → String → CTree → Except String CTree
  | [], cid, t =>
    if t.flagged then Except.error "LockedTreeMutation"
    else if (childWithId t.kids cid).isSome then Except.error "DuplicateChildId"
    else Except.ok (.node t.ident t.flagged t.vals (t.kids ++ [.node cid false [] []]))
  | j :: rest, cid, t =>
    if t.flagged then Except.error "LockedTreeMutation"
    else
      match childWithId t.kids j with
      | none => Except.error "ChildNotFound"
      | some c =>
        match addChildAt rest cid c with
        | Except.error e => Except.error e
        | Except.ok c2 =>
          Except.ok (.node t.ident t.flagged t.vals
            (t.kids.map (fun d => if d.ident == j then c2 else d)))

/-- The error strings a single node's own validators return, concatenated. -/
def validateNode : CTree → List String
  | .node _ _ vs _ => vs.flatMap (fun v => v)

mutual

/-- Modelled from the spec: `validate()` (node.ts lines 304-327 delegates to
the constructs library; spec section 4.1) invokes every validator
registered across the full subtree and returns the concatenation of all
returned error strings.  Total — it never throws. -/
def validateTree : CTree → List String
  | .node _ _ vs cs => vs.flatMap (fun v => v) ++ validateForest cs

/-- Subtree validation over a list of children, in order. -/
def validateForest : List CTree → List String
  | [] => []
  | c :: cs => validateTree c ++ validateForest cs

end

mutual

/-- The node and all of its descendants, node before descendants, children
in insertion order (spec section 4.1, `findAll(PREORDER)`). -/
def preorder : CTree → List CTree
  | .node i f vs cs => .node i f vs cs :: preorderForest cs

/-- Preorder listing of a forest, in order. -/
def preorderForest : List CTree → List CTree
  | [] => []
  | c :: cs => preorder c ++ preorderForest cs

end

/-- A subtree carrying exactly 3 failing validators (each returning one
message) and 2 passing validators (each returning `[]`): the root has one
failing and one passing validator, one child has one failing validator, the
other child has one passing and one failing validator. -/
def validationExampleTree : CTree :=
  .node "App" false [["error A"], []]
    [.node "B" false [["error B"]] [],
     .node "C" false [[], ["error C"]] []]

/-- A small unlocked tree root/A/B used as a concrete witness input. -/
def lockExampleTree : CTree :=
  .node "root" false [] [.node "A" false [] [.node "B" false [] []]]

/-! ## Helper lemmas -/

theorem sha1Words_length (msg : List Nat) : (sha1Words msg).length = 5 := by
  simp [sha1Words]

theorem wordHexChars_length (w : Nat) : (wordHexChars w).length = 8 := by
  simp [wordHexChars]

theorem sha1HexChars_length (msg : List Nat) : (sha1HexChars msg).length = 40 := by
  simp [sha1HexChars, List.length_flatMap, sha1Words, wordHexChars_length]

theorem hexChars_getD_mem (x : Nat) : hexChars.getD (x % 16) '0' ∈ hexChars := by
  have h : x % 16 < 16 := Nat.mod_lt _ (by norm_num)
  interval_cases h' : x % 16 <;> decide

theorem mem_sha1HexChars {c : Char} {msg : List Nat} (h : c ∈ sha1HexChars msg) :
    c ∈ hexChars := by
  simp only [sha1HexChars, List.mem_flatMap] at h
  obtain ⟨w, _, hw⟩ := h
  simp only [wordHexChars, List.mem_map, List.mem_range] at hw
  obtain ⟨i, _, rfl⟩ := hw
  exact hexChars_getD_mem _

theorem addrChars_length (l : List String) : (addrChars l).length = 42 := by
  simp [addrChars, sha1HexChars_length]

theorem addrOfComponents_length (l : List String) :
    (addrOfComponents l).length = 42 :=
  addrChars_length l

/-! ## C1, C2, C9 -/

/-- C1: structural transparency of addresses — for any two root-to-node id
sequences that agree after removing segments equal to the reserved
transparent-wrapper id "Default", the `addr` results are equal, since such
segments are removed before hashing. -/
theorem c1_addr_transparent (l₁ l₂ : List String)
    (h : l₁.filter (fun c => c != "Default") = l₂.filter (fun c => c != "Default")) :
    addrOfComponents l₁ = addrOfComponents l₂ := by
  unfold addrOfComponents addrChars
  rw [h]

theorem c1_addr_transparent_witness :
    addrOfComponents ["App", "Queue", "Topic"] =
      addrOfComponents ["App", "Queue", "Default", "Topic"] :=
  c1_addr_transparent _ _ (by decide)

/-- C2: address format — for every node the `addr` string is exactly 42
characters: the constant 2-character tag "c8" followed by 40 lowercase
hexadecimal characters taken from the SHA-1 digest of the node's path
components. -/
theorem c2_addr_format (comps : List String) :
    (addrOfComponents comps).length = 42 ∧
    (addrOfComponents comps).data.take 2 = ['c', '8'] ∧
    ((addrOfComponents comps).data.drop 2).all hexChars.contains = true := by
  refine ⟨addrOfComponents_length comps, rfl, ?_⟩
  rw [List.all_eq_true]
  intro ch hch
  have hm : ch ∈ sha1HexChars
      (componentsBytes (comps.filter (fun c => c != "Default"))) := hch
  have := mem_sha1HexChars hm
  simpa [List.contains, List.elem_iff] using this

/-- C9: the environment-variable name derived for a Schedule node equals the
fixed text `SCHEDULER_JOB_` followed by exactly the last 8 characters of
the node's 42-character address (a pure function of the address — the
embedding is purely functional, so repeated evaluation is definitionally
identical). -/
theorem c9_envName_from_addr (comps : List String) :
    (envName comps).length = 22 ∧
    (envName comps).data.take 14 = "SCHEDULER_JOB_".data ∧
    (envName comps).data.drop 14 = (addrOfComponents comps).data.drop 34 ∧
    (addrOfComponents comps).length = 42 ∧
    ((addrOfComponents comps).data.drop 34).length = 8 := by
  have hlen : (addrOfComponents comps).data.length = 42 := addrChars_length comps
  have hslice : (jsSliceLast 8 (addrOfComponents comps)).data =
      (addrOfComponents comps).data.drop 34 := by
    show (addrOfComponents comps).data.drop ((addrOfComponents comps).data.length - 8) = _
    rw [hlen]
  have hdata : (envName comps).data =
      "SCHEDULER_JOB_".data ++ (addrOfComponents comps).data.drop 34 := by
    show ("SCHEDULER_JOB_" ++ jsSliceLast 8 (addrOfComponents comps)).data = _
    rw [String.data_append, hslice]
  have h14 : "SCHEDULER_JOB_".data.length = 14 := rfl
  refine ⟨?_, ?_, ?_, addrOfComponents_length comps, ?_⟩
  · show (envName comps).data.length = 22
    rw [hdata]
    simp [h14, List.length_drop, hlen]
  · rw [hdata, ← h14, List.take_left]
  · rw [hdata, ← h14, List.drop_left]
  · simp [List.length_drop, hlen]

/-! ## C3 and C10: GCP Function construction-time validation -/

theorem msgs_ne : memoryErrorMsg ≠ timeoutErrorMsg := by decide

/-- C3 fails as stated: `props.memory = 0` lies outside [128, 8192] yet
raises no error (the guard tests JS truthiness first, and 0 is falsy), and
the memory error message, here produced for the offending value 9000, names
the violated bound but not the offending value. -/
theorem c3_memory_guard_counterexample :
    validateFunctionProps (some 0) none = Except.ok () ∧
    validateFunctionProps (some 9000) none = Except.error memoryErrorMsg ∧
    ¬ List.IsInfix "9000".data memoryErrorMsg.data := by
  exact ⟨rfl, rfl, by decide⟩

/-- C3 (amended): the memory error is raised exactly when `props.memory` is
present, nonzero and outside [128, 8192]; the timeout error exactly when
the memory check passes and `props.timeout` is present with seconds outside
[1, 540]; construction with in-range (or absent) values raises neither
error; each error message names the violated bound (though not the
offending value). -/
theorem c3_validation_amended (memory timeoutSeconds : Option Nat) :
    (validateFunctionProps memory timeoutSeconds = Except.error memoryErrorMsg ↔
      ∃ m, memory = some m ∧ m ≠ 0 ∧ (m < 128 ∨ m > 8192)) ∧
    (validateFunctionProps memory timeoutSeconds = Except.error timeoutErrorMsg ↔
      ((∀ m, memory = some m → m = 0 ∨ (128 ≤ m ∧ m ≤ 8192)) ∧
        ∃ t, timeoutSeconds = some t ∧ (t < 1 ∨ t > 540))) ∧
    (validateFunctionProps memory timeoutSeconds = Except.ok () ↔
      ((∀ m, memory = some m → m = 0 ∨ (128 ≤ m ∧ m ≤ 8192)) ∧
        (∀ t, timeoutSeconds = some t → 1 ≤ t ∧ t ≤ 540))) ∧
    List.IsInfix "between 128 and 8192 MB".data memoryErrorMsg.data ∧
    List.IsInfix "between 1 and 540 seconds".data timeoutErrorMsg.data := by
  refine ⟨?_, ?_, ?_, by decide, by decide⟩ <;>
    rcases memory with _ | m <;> rcases timeoutSeconds with _ | t <;>
      simp [validateFunctionProps, memoryGuard, timeoutGuard, msgs_ne, msgs_ne.symm] <;>
      first
        | omega
        | (split_ifs <;> simp [msgs_ne, msgs_ne.symm] <;> omega)

theorem c3_validation_amended_witness :
    validateFunctionProps (some 64) (some 600) = Except.error memoryErrorMsg :=
  (c3_validation_amended (some 64) (some 600)).1.mpr
    ⟨64, rfl, by decide, Or.inl (by decide)⟩

/-- C10: constructing the target-tf-gcp Function with `props.memory = 0`
does not raise the memory-range error even though 0 is outside [128, 8192]
(the guard only fires for truthy memory values), the synthesized
`availableMemoryMb` is then 0 rather than the 128 default, and the 128
default applies only when `props.memory` is absent. -/
theorem c10_memory_zero_skips_guard :
    validateFunctionProps (some 0) none = Except.ok () ∧
    memoryGuard (some 0) = false ∧
    (∀ t, validateFunctionProps (some 0) t =
      (if timeoutGuard t then Except.error timeoutErrorMsg else Except.ok ())) ∧
    availableMemoryMb (some 0) = 0 ∧
    availableMemoryMb none = 128 ∧
    ∀ m, availableMemoryMb (some m) = m := by
  refine ⟨rfl, rfl, fun t => ?_, rfl, rfl, fun m => rfl⟩
  simp [validateFunctionProps, memoryGuard]

/-! ## C8: shared-aws Api downcast -/

/-- C8: `Api.from` is total (the model returns an `Option`, never an
error): it returns `undefined` exactly when at least one of the six probed
fields is not a string, and returns the argument itself, viewed as the
concrete AWS type, whenever all six fields are strings. -/
theorem c8_api_from_total (o : ApiObj) :
    (apiFrom o = none ↔
      (o.restApiArn.isStringTy = false ∨ o.restApiId.isStringTy = false ∨
       o.restApiName.isStringTy = false ∨ o.stageName.isStringTy = false ∨
       o.invokeUrl.isStringTy = false ∨ o.deploymentId.isStringTy = false)) ∧
    ((o.restApiArn.isStringTy = true ∧ o.restApiId.isStringTy = true ∧
      o.restApiName.isStringTy = true ∧ o.stageName.isStringTy = true ∧
      o.invokeUrl.isStringTy = true ∧ o.deploymentId.isStringTy = true) →
      apiFrom o = some o) := by
  cases h1 : o.restApiArn.isStringTy <;>
    cases h2 : o.restApiId.isStringTy <;>
      cases h3 : o.restApiName.isStringTy <;>
        cases h4 : o.stageName.isStringTy <;>
          cases h5 : o.invokeUrl.isStringTy <;>
            cases h6 : o.deploymentId.isStringTy <;>
              simp [apiFrom, isAwsApi, h1, h2, h3, h4, h5, h6]

theorem c8_api_from_witness :
    apiFrom ⟨.str "arn", .str "id", .str "name", .str "prod", .str "url", .str "dep"⟩ =
      some ⟨.str "arn", .str "id", .str "name", .str "prod", .str "url", .str "dep"⟩ :=
  (c8_api_from_total _).2 (by decide)

/-! ## C5: idempotent lazy attachment -/

theorem lookupAttached_insert (t : AttachTable) (c : Nat) :
    lookupAttached ⟨(c, t.nextInstance) :: t.entries, t.nextInstance + 1⟩ c =
      some t.nextInstance := by
  simp [lookupAttached, List.find?]

/-- C5: idempotent lazy attachment — the first call of `Node.of`
(respectively `Display.of`) on a construct creates and caches the companion
instance, and every subsequent call on the same construct returns the
identical instance and leaves the table unchanged. -/
theorem c5_attach_idempotent (t : AttachTable) (c : Nat) :
    nodeOf (nodeOf t c).2 c = nodeOf t c ∧
    lookupAttached (nodeOf t c).2 c = some (nodeOf t c).1 ∧
    displayOf (displayOf t c).2 c = displayOf t c ∧
    lookupAttached (displayOf t c).2 c = some (displayOf t c).1 := by
  cases h : lookupAttached t c with
  | some inst =>
    refine ⟨?_, ?_, ?_, ?_⟩ <;> simp [nodeOf, displayOf, h]
  | none =>
    have h2 := lookupAttached_insert t c
    refine ⟨?_, ?_, ?_, ?_⟩ <;> simp [nodeOf, displayOf, h, h2]

/-! ## C4: Schedule.onTick memoization is unreachable -/

/-- C4 is contradicted by the code: on a fresh Schedule, the first `onTick`
with handler id "h1" succeeds and records the memoized Function, but a
second `onTick` with the same handler id fails with a duplicate-child-id
error for "CloudSchedulerAPI" — `new ProjectService(this,
"CloudSchedulerAPI", ...)` runs before the memo lookup, so the memoized
early return is unreachable and the second call never returns the
previously created child Function. -/
theorem c4_onTick_second_call_errors :
    onTick { childIds := [], handlers := [], nextTick := 0 } "h1" =
      Except.ok (0, scheduleAfterFirstTick) ∧
    onTick scheduleAfterFirstTick "h1" =
      Except.error "There is already a Construct with name CloudSchedulerAPI" := by
  exact ⟨rfl, rfl⟩

/-! ## C6: validation aggregation -/

mutual

theorem validateTree_eq_preorder : (t : CTree) →
    validateTree t = (preorder t).flatMap validateNode
  | .node i f vs cs => by
    rw [validateTree, preorder, List.flatMap_cons, validateForest_eq_preorder cs]
    rfl

theorem validateForest_eq_preorder : (cs : List CTree) →
    validateForest cs = (preorderForest cs).flatMap validateNode
  | [] => rfl
  | c :: cs => by
    rw [validateForest, preorderForest, List.flatMap_append,
      validateTree_eq_preorder c, validateForest_eq_preorder cs]

end

/-- C6: `validate()` never throws (the model is a total function returning
the list of messages); it invokes every validator registered across the
full subtree and returns the concatenation of all returned error strings —
equal to concatenating each preorder node's own validator output — and on
the concrete subtree with exactly 3 failing and 2 passing validators it
returns exactly the 3 messages. -/
theorem c6_validate_aggregates :
    validateTree validationExampleTree = ["error A", "error B", "error C"] ∧
    (validateTree validationExampleTree).length = 3 ∧
    ∀ t, validateTree t = (preorder t).flatMap validateNode :=
  ⟨rfl, rfl, validateTree_eq_preorder⟩

/-! ## C7: lock invariant -/

theorem lockAt_ident (p : List String) (t : CTree) : (lockAt p t).ident = t.ident := by
  cases t with
  | node i f v k => cases p <;> simp [lockAt, CTree.ident]

theorem childWithId_cons (c : CTree) (cs : List CTree) (j : String) :
    childWithId (c :: cs) j = if c.ident == j then some c else childWithId cs j := by
  cases hb : (c.ident == j) <;> simp [childWithId, List.find?_cons, hb]

theorem childWithId_map_lockAt (k : List CTree) (j : String) (rest : List String) :
    childWithId (k.map (fun c => if c.ident == j then lockAt rest c else c)) j =
      (childWithId k j).map (fun c => lockAt rest c) := by
  induction k with
  | nil => rfl
  | cons c cs ih =>
    simp only [List.map_cons]
    by_cases hbp : (c.ident == j) = true
    · rw [if_pos hbp, childWithId_cons, childWithId_cons,
        if_pos (show ((lockAt rest c).ident == j) = true by rw [lockAt_ident]; exact hbp),
        if_pos hbp]
      rfl
    · rw [if_neg hbp, childWithId_cons, childWithId_cons, if_neg hbp, if_neg hbp]
      exact ih

theorem addChildAt_lockAt_error (p : List String) :
    ∀ (q : List String) (t : CTree) (cid : String),
    (nodeAt (p ++ q) t).isSome = true →
    addChildAt (p ++ q) cid (lockAt p t) = Except.error "LockedTreeMutation" := by
  induction p with
  | nil =>
    intro q t cid _
    cases t with
    | node i f v k => cases q <;> simp [lockAt, addChildAt, CTree.flagged]
  | cons i rest ih =>
    intro q t cid h
    cases t with
    | node tid f v k =>
      simp only [List.cons_append, nodeAt, CTree.kids] at h
      cases hc : childWithId k i with
      | none => rw [hc] at h; simp at h
      | some c =>
        rw [hc] at h
        simp only [List.cons_append, lockAt, addChildAt, CTree.flagged, CTree.kids]
        cases f with
        | true => rw [if_pos rfl]
        | false =>
          rw [if_neg (by simp)]
          rw [childWithId_map_lockAt, hc]
          have h' : (nodeAt (rest ++ q) c).isSome = true := by simpa using h
          have herr := ih q c cid h'
          simp [herr]

theorem lockedAt_imp (p : List String) :
    ∀ (t : CTree), lockedAt p t = true →
    ∃ q r, p = q ++ r ∧ ∃ n, nodeAt q t = some n ∧ n.flagged = true := by
  induction p with
  | nil =>
    intro t h
    exact ⟨[], [], rfl, t, rfl, h⟩
  | cons i rest ih =>
    intro t h
    simp only [lockedAt] at h
    cases hf : t.flagged with
    | true => exact ⟨[], i :: rest, rfl, t, rfl, hf⟩
    | false =>
      rw [hf] at h
      simp only [Bool.false_or] at h
      cases hc : childWithId t.kids i with
      | none => rw [hc] at h; simp at h
      | some c =>
        rw [hc] at h
        obtain ⟨q', r', heq, n, hn, hflag⟩ := ih c h
        refine ⟨i :: q', r', by rw [heq]; rfl, n, ?_, hflag⟩
        simp only [nodeAt, hc]
        exact hn

theorem lockedAt_of_flag (q : List String) :
    ∀ (t n : CTree), nodeAt q t = some n → n.flagged = true →
    ∀ r, lockedAt (q ++ r) t = true := by
  induction q with
  | nil =>
    intro t n hn hf r
    obtain rfl : t = n := by simpa [nodeAt] using hn
    cases r <;> simp [lockedAt, hf]
  | cons i rest ih =>
    intro t n hn hf r
    simp only [nodeAt] at hn
    cases hc : childWithId t.kids i with
    | none => rw [hc] at hn; simp at hn
    | some c =>
      rw [hc] at hn
      have := ih c n hn hf r
      simp only [List.cons_append, lockedAt, hc]
      simp [this]

theorem addChildAt_ok (p : List String) :
    ∀ (t : CTree) (cid : String) (n : CTree), nodeAt p t = some n →
    lockedAt p t = false → childWithId n.kids cid = none →
    ∃ t2, addChildAt p cid t = Except.ok t2 := by
  induction p with
  | nil =>
    intro t cid n hn hl hdup
    obtain rfl : t = n := by simpa [nodeAt] using hn
    simp only [lockedAt] at hl
    exact ⟨.node t.ident t.flagged t.vals (t.kids ++ [.node cid false [] []]),
      by simp [addChildAt, hl, hdup]⟩
  | cons i rest ih =>
    intro t cid n hn hl hdup
    simp only [nodeAt] at hn
    simp only [lockedAt] at hl
    cases hc : childWithId t.kids i with
    | none => rw [hc] at hn; simp at hn
    | some c =>
      rw [hc] at hn
      rw [hc] at hl
      have hfl : t.flagged = false := by
        cases hft : t.flagged
        · rfl
        · rw [hft] at hl; simp at hl
      have hlc : lockedAt rest c = false := by
        rw [hfl] at hl; simpa using hl
      obtain ⟨c2, hc2⟩ := ih c cid n hn hlc hdup
      exact ⟨.node t.ident t.flagged t.vals
          (t.kids.map (fun d => if d.ident == i then c2 else d)),
        by simp [addChildAt, hfl, hc, hc2]⟩

/-- C7: lock invariant — the `locked` accessor reports true exactly when
the node or one of its enclosing scopes carries the lock flag; after
`lock()` on a node, adding a child to that node or to any node beneath it
fails with `LockedTreeMutation`; and on an unlocked node (with an existing
path and a fresh child id) the same mutation succeeds. -/
theorem c7_lock_invariant :
    (∀ p t, lockedAt p t = true ↔
      ∃ q r, p = q ++ r ∧ ∃ n, nodeAt q t = some n ∧ n.flagged = true) ∧
    (∀ p q t cid, (nodeAt (p ++ q) t).isSome = true →
      addChildAt (p ++ q) cid (lockAt p t) = Except.error "LockedTreeMutation") ∧
    (∀ p t cid n, nodeAt p t = some n → lockedAt p t = false →
      childWithId n.kids cid = none →
      ∃ t2, addChildAt p cid t = Except.ok t2) := by
  refine ⟨fun p t => ⟨lockedAt_imp p t, ?_⟩, addChildAt_lockAt_error, addChildAt_ok⟩
  rintro ⟨q, r, rfl, n, hn, hf⟩
  exact lockedAt_of_flag q t n hn hf r

theorem c7_lock_invariant_witness :
    lockedAt ["A", "B"] (lockAt ["A"] lockExampleTree) = true ∧
    addChildAt ["A", "B"] "C" (lockAt ["A"] lockExampleTree) =
      Except.error "LockedTreeMutation" ∧
    (∃ t2, addChildAt ["A", "B"] "C" lockExampleTree = Except.ok t2) := by
  refine ⟨?_, ?_, ?_⟩
  · exact (c7_lock_invariant.1 ["A", "B"] (lockAt ["A"] lockExampleTree)).mpr
      ⟨["A"], ["B"], rfl, .node "A" true [] [.node "B" false [] []], rfl, rfl⟩
  · exact c7_lock_invariant.2.1 ["A"] ["B"] lockExampleTree "C" rfl
  · exact c7_lock_invariant.2.2 ["A", "B"] lockExampleTree "C" (.node "B" false [] [])
      rfl rfl rfl
